import Mathlib

/-!
Shallow embedding of the COREP LLM regulatory assistant's
retrieval-to-validated-result pipeline
(`backend/app/validation.py` and the reconciliation/merge part of
`backend/app/rag.py`).

Python floats are idealized as exact rationals (`ℚ`); binary rounding of
IEEE doubles is not modelled.  Values of the untyped `RawModelOutput`
mapping are embedded as `PyVal`.
-/

namespace Corep

/-- Embedding of the Python values that can appear in the untyped model
output (`None`, `bool`, `int`, `float`, `str`, `list`).  `bool` is kept as
its own constructor, but note that in Python `bool` is a subclass of
`int`, which `_to_optional_float` below reflects. -/
inductive PyVal where
  | none : PyVal
  | bool (b : Bool) : PyVal
  | int (n : ℤ) : PyVal
  | float (q : ℚ) : PyVal
  | str (s : String) : PyVal
  | list (xs : List PyVal) : PyVal

/-- The whitespace characters removed by Python's `str.strip()` (ASCII
subset: space, tab, newline, carriage return, vertical tab, form feed). -/
def pyIsSpace (c : Char) : Bool :=
  c == ' ' || c == '\t' || c == '\n' || c == '\r' ||
  c == Char.ofNat 11 || c == Char.ofNat 12

/-- `str.strip()` on a character list: drop whitespace from both ends. -/
def stripChars (cs : List Char) : List Char :=
  ((cs.dropWhile pyIsSpace).reverse.dropWhile pyIsSpace).reverse

/-- `str.strip()`. -/
def pyStrip (s : String) : String :=
  String.mk (stripChars s.data)

/-- Numeric value of a decimal digit character. -/
def digitVal (c : Char) : Nat := c.toNat - 48

/-- Value of a list of decimal digit characters (most significant first). -/
def digitsToNat (ds : List Char) : Nat :=
  ds.foldl (fun a c => a * 10 + digitVal c) 0

/-- The grammar accepted by Python's `float()` constructor on the decimal
fragment: surrounding whitespace, an optional sign, digits with an
optional decimal point (at least one digit overall), and an optional
exponent.  `inf`/`nan` literals and `_` digit separators, which CPython
also accepts, are not modelled (no claim depends on them). -/
def pyFloatParse (cs0 : List Char) : Option ℚ :=
  let cs := stripChars cs0
  let signAndRest : ℚ × List Char :=
    match cs with
    | '+' :: rest => (1, rest)
    | '-' :: rest => (-1, rest)
    | _ => (1, cs)
  let sgn := signAndRest.1
  let cs1 := signAndRest.2
  let intPart := cs1.takeWhile Char.isDigit
  let cs2 := cs1.dropWhile Char.isDigit
  let fracAndRest : List Char × List Char :=
    match cs2 with
    | '.' :: rest => (rest.takeWhile Char.isDigit, rest.dropWhile Char.isDigit)
    | _ => ([], cs2)
  let fracPart := fracAndRest.1
  let cs3 := fracAndRest.2
  if intPart.isEmpty && fracPart.isEmpty then none
  else
    let mant : ℚ :=
      sgn * ((digitsToNat intPart : ℚ) +
        (digitsToNat fracPart : ℚ) / (10 ^ fracPart.length))
    match cs3 with
    | [] => some mant
    | e :: rest =>
      if e == 'e' || e == 'E' then
        let esignAndRest : Bool × List Char :=
          match rest with
          | '+' :: r => (true, r)
          | '-' :: r => (false, r)
          | _ => (true, rest)
        let eds := esignAndRest.2.takeWhile Char.isDigit
        let rest2 := esignAndRest.2.dropWhile Char.isDigit
        if eds.isEmpty || !rest2.isEmpty then none
        else if esignAndRest.1 then some (mant * 10 ^ digitsToNat eds)
        else some (mant / 10 ^ digitsToNat eds)
      else none

/-- `validation._to_optional_float`.  Mirrors the source exactly:
`None → None`; `isinstance(value, (int, float)) → float(value)` — which in
Python is also taken by `bool` values, casting `True → 1.0` and
`False → 0.0`; strings are stripped, then `replace("%", "")` removes
*every* `'%'` character, an empty remainder gives `None`, otherwise
`float(...)` is attempted and a parse failure gives `None`; every other
type (lists here) gives `None`. -/
def _to_optional_float : PyVal → Option ℚ
  | .none => none
  | .bool b => some (if b then 1 else 0)
  | .int n => some (n : ℚ)
  | .float q => some q
  | .str v =>
    let stripped := (stripChars v.data).filter (fun c => !(c == '%'))
    if stripped.isEmpty then none
    else pyFloatParse stripped
  | .list _ => none

/-- Fractional decimal digits of a rational in `[0, 1)`, most significant
first, with fuel bounding the number of digits produced. -/
def fracDigits : Nat → ℚ → List Char
  | 0, _ => []
  | fuel + 1, x =>
    if x = 0 then []
    else
      let y := x * 10
      Char.ofNat (48 + (⌊y⌋).toNat) :: fracDigits fuel (y - ⌊y⌋)

/-- Models `repr()`/`str()` of a Python float.  CPython prints the shortest
decimal string that round-trips through the binary double; under the
exact-rational idealization we print the exact decimal expansion,
truncated to 17 fractional digits.  No claim depends on this rendering. -/
def pyFloatRepr (q : ℚ) : String :=
  let sign := if q < 0 then "-" else ""
  let a := |q|
  let fs := fracDigits 17 (a - ⌊a⌋)
  sign ++ toString (⌊a⌋).toNat ++ "." ++ (if fs.isEmpty then "0" else String.mk fs)

mutual

/-- Models Python `repr()` on embedded values (string quote-escaping is
elided; no claim depends on it). -/
def pyRepr : PyVal → String
  | .none => "None"
  | .bool b => if b then "True" else "False"
  | .int n => toString n
  | .float q => pyFloatRepr q
  | .str s => "'" ++ s ++ "'"
  | .list xs => "[" ++ pyReprList xs ++ "]"

/-- `repr()` of the elements of a Python list, comma-separated. -/
def pyReprList : List PyVal → String
  | [] => ""
  | [x] => pyRepr x
  | x :: y :: xs => pyRepr x ++ ", " ++ pyReprList (y :: xs)

end

/-- Models Python `str()`: identity on strings, `repr`-based elsewhere
(`str(None) = "None"`, `str(True) = "True"`, lists render their elements
with `repr`). -/
def pyStr : PyVal → String
  | .str s => s
  | .list xs => "[" ++ pyReprList xs ++ "]"
  | v => pyRepr v

/-- Python truthiness of an embedded value (`bool(value)`). -/
def pyTruthy : PyVal → Bool
  | .none => false
  | .bool b => b
  | .int n => !(n == 0)
  | .float q => if q = 0 then false else true
  | .str s => !(s == "")
  | .list xs => !xs.isEmpty

/-- The untyped model output: a Python dict from field name to value.
Keys are unique in a dict; lookup takes the first match. -/
def RawOutput : Type := List (String × PyVal)

/-- Dict lookup returning whether the key is present. -/
def dictLookup (d : RawOutput) (k : String) : Option PyVal :=
  match d with
  | [] => none
  | (k', v) :: rest => if k' == k then some v else dictLookup rest k

/-- Python `d.get(key)`: the value, or `None` when the key is absent. -/
def dictGet (d : RawOutput) (k : String) : PyVal :=
  (dictLookup d k).getD PyVal.none

/-- Python `d.get(key, default)`: the value, or `default` when absent. -/
def dictGetD (d : RawOutput) (k : String) (dflt : PyVal) : PyVal :=
  (dictLookup d k).getD dflt

/-- `models.CorepResult` (pydantic model), floats idealized as `ℚ`. -/
structure CorepResult where
  template_name : String
  CET1 : Option ℚ
  AT1 : Option ℚ
  Tier2 : Option ℚ
  RWA : Option ℚ
  CET1_ratio : Option ℚ
  missing_fields : List String
  validation_warnings : List String
  rules_used : List String
  explanation : String
deriving Repr, DecidableEq

/-- `models.RetrievedDoc` (pydantic model). -/
structure RetrievedDoc where
  id : String
  source : String
  citation : String
  text : String
deriving Repr, DecidableEq

/-- `validation.MIN_CET1_RATIO = 0.045` (the decimal literal, exact under
the rational idealization). -/
def minCet1Ratio : ℚ := 45 / 1000

/-- The absolute tolerance `1e-6` of the ratio-disagreement check. -/
def ratioTol : ℚ := 1 / 1000000

/-- Default template name used when `template_name` is absent or falsy. -/
def defaultTemplateName : String := "COREP Own Funds (prototype)"

/-- Default explanation used when the `explanation` key is absent. -/
def defaultExplanation : String :=
  "Explanation not provided by the model. This is an automatically generated prototype output."

/-- The fixed warning text appended when the model-proposed ratio disagrees
with both CET1 and the recomputed ratio (two adjacent string literals in
the source concatenate to this single string). -/
def discrepancyWarning : String :=
  "Model-proposed CET1_ratio differed from deterministic CET1/RWA. The deterministic value has been used instead."

/-- Round a rational to the nearest integer, ties to even — the rounding
CPython's fixed-point float formatting applies. -/
def roundHalfEven (x : ℚ) : ℤ :=
  let f := ⌊x⌋
  let frac := x - f
  if frac < 1 / 2 then f
  else if 1 / 2 < frac then f + 1
  else if f % 2 = 0 then f else f + 1

/-- Left-pad a string with `'0'` to the given length. -/
def padZeros (k : Nat) (s : String) : String :=
  String.mk (List.replicate (k - s.length) '0') ++ s

/-- Python `f"{q:.4f}"`: fixed-point rendering with four fractional
digits.  (CPython rounds the decimal reading of the binary double; here
the exact rational is rounded, ties to even.  The sign of a negative
value rounding to zero is elided; no claim depends on it.) -/
def formatFixed4 (q : ℚ) : String :=
  let scaled := roundHalfEven (q * 10000)
  let sign := if scaled < 0 then "-" else ""
  let n := scaled.natAbs
  sign ++ toString (n / 10000) ++ "." ++ padZeros 4 (toString (n % 10000))

/-- The threshold warning text of `validation.validate_corep_result`
(lines 62–66): both the computed ratio and `MIN_CET1_RATIO` are formatted
with `:.4f`. -/
def thresholdWarning (ratio : ℚ) : String :=
  "CET1_ratio of " ++ formatFixed4 ratio ++
    " is below the minimum requirement of " ++ formatFixed4 minCet1Ratio ++ " (4.5%)."

/-- Step 5 of the reconciler (`validation.py` lines 50–60): when CET1 and
RWA are both coerced and RWA > 0, the ratio is recomputed as `CET1/RWA`
and a disagreement between the model-proposed ratio and both `CET1` and
the recomputed ratio (absolute difference above `1e-6` in each case)
yields the fixed discrepancy warning; otherwise the model-proposed ratio
is passed through. -/
def step5Ratio (cet1 rwa m : Option ℚ) : Option ℚ × List String :=
  match cet1, rwa with
  | some c, some r =>
    if 0 < r then
      let ratio := c / r
      (some ratio,
        match m with
        | some mq =>
          if ratioTol < |mq - c| ∧ ratioTol < |mq - ratio| then [discrepancyWarning]
          else []
        | none => [])
    else (m, [])
  | _, _ => (m, [])

/-- Coerce one named field of the raw output (`_to_optional_float` applied
to `initial.get(name)`). -/
def coerced (initial : RawOutput) (k : String) : Option ℚ :=
  _to_optional_float (dictGet initial k)

/-- The derived ratio together with the discrepancy warnings of step 5. -/
def derivedRatioWarnings (initial : RawOutput) : Option ℚ × List String :=
  step5Ratio (coerced initial "CET1") (coerced initial "RWA") (coerced initial "CET1_ratio")

/-- The final `CET1_ratio` value of the reconciler. -/
def derivedRatio (initial : RawOutput) : Option ℚ :=
  (derivedRatioWarnings initial).1

/-- Step 6 (`validation.py` lines 62–66): a threshold warning when the
final ratio is present and strictly below `MIN_CET1_RATIO`. -/
def thresholdWarnings (ratio : Option ℚ) : List String :=
  match ratio with
  | some q => if q < minCet1Ratio then [thresholdWarning q] else []
  | none => []

/-- The deterministic warnings, in the order the source appends them:
discrepancy warning first, then the threshold warning. -/
def detWarnings (initial : RawOutput) : List String :=
  (derivedRatioWarnings initial).2 ++ thresholdWarnings (derivedRatio initial)

/-- Step 4 (`validation.py` lines 43–46): the names among CET1, AT1,
Tier2, RWA whose coerced value is `None`, in that fixed order. -/
def detMissingFields (initial : RawOutput) : List String :=
  (([("CET1", coerced initial "CET1"), ("AT1", coerced initial "AT1"),
     ("Tier2", coerced initial "Tier2"), ("RWA", coerced initial "RWA")]).filter
    (fun p => p.2.isNone)).map Prod.fst

/-- Append each entry to the accumulator unless already present — the
`if x_str not in xs: xs.append(x_str)` loops of the source. -/
def dedupAppend (acc : List String) (xs : List String) : List String :=
  xs.foldl (fun a s => if s ∈ a then a else a ++ [s]) acc

/-- `validation.py` lines 68–80: `initial.get("rules_used") or []`; a list
value has each item appended via `str(item)` (the `try` never fails:
`str` is total on embedded values), with **no** duplicate check; a truthy
non-list value contributes its own `str` form as a single entry. -/
def rulesUsedFromModel (v : PyVal) : List String :=
  match (if pyTruthy v then v else PyVal.list []) with
  | .list items => items.map pyStr
  | other => [pyStr other]

/-- `validation.py` lines 82–87 and 89–94: a model-declared list has each
entry string-coerced and appended when not already present; non-list
values contribute nothing. -/
def modelListEntries (v : PyVal) : List String :=
  match (if pyTruthy v then v else PyVal.list []) with
  | .list entries => entries.map pyStr
  | _ => []

/-- `validation.validate_corep_result`: the deterministic reconciliation
of the raw model output into a `CorepResult`. -/
def validate_corep_result (initial : RawOutput) : CorepResult :=
  { template_name :=
      if pyTruthy (dictGet initial "template_name") then pyStr (dictGet initial "template_name")
      else defaultTemplateName
    CET1 := coerced initial "CET1"
    AT1 := coerced initial "AT1"
    Tier2 := coerced initial "Tier2"
    RWA := coerced initial "RWA"
    CET1_ratio := derivedRatio initial
    missing_fields :=
      dedupAppend (detMissingFields initial) (modelListEntries (dictGet initial "missing_fields"))
    validation_warnings :=
      dedupAppend (detWarnings initial) (modelListEntries (dictGet initial "validation_warnings"))
    rules_used := rulesUsedFromModel (dictGet initial "rules_used")
    explanation := pyStr (dictGetD initial "explanation" (PyVal.str defaultExplanation)) }

/-- Lexicographic order on character lists — Python's string comparison
(by code point). -/
def charListLe : List Char → List Char → Bool
  | [], _ => true
  | _ :: _, [] => false
  | a :: as, b :: bs => if a < b then true else if b < a then false else charListLe as bs

/-- Python's `str` ordering, as used by `sorted` on citation strings. -/
def strLe (a b : String) : Bool := charListLe a.data b.data

/-- `rag.generate_corep_assessment` lines 279–280: the set of citations of
the retrieved docs (`{doc.citation for doc in retrieved_docs}`), iterated
in sorted order (`sorted(...)`). -/
def sortedCitations (docs : List RetrievedDoc) : List String :=
  List.insertionSort (fun a b => strLe a b = true) ((docs.map RetrievedDoc.citation).dedup)

/-- `rag.generate_corep_assessment` lines 280–282: append each retrieved
citation, in sorted order, unless already present in `rules_used`. -/
def mergeCitations (rules : List String) (docs : List RetrievedDoc) : List String :=
  dedupAppend rules (sortedCitations docs)

/-- The audit-merge step applied to the reconciled result (the in-place
`corep_result.rules_used.append(citation)` loop of the source). -/
def auditMerge (res : CorepResult) (docs : List RetrievedDoc) : CorepResult :=
  { res with rules_used := mergeCitations res.rules_used docs }

/-- `validate_corep_result` followed by the audit merge — the part of
`generate_corep_assessment` downstream of the model call. -/
def pipelineResult (raw : RawOutput) (docs : List RetrievedDoc) : CorepResult :=
  auditMerge (validate_corep_result raw) docs

/-! ### The tolerant model-output parsing of `rag._call_llm._parse_json`

`json.loads` is modelled as a strict JSON parser over the embedded text.
Python's `json.loads` extensions `NaN`/`Infinity` (not representable in
`ℚ`) and surrogate-pair decoding of `\uXXXX` escapes are not modelled; no
claim depends on them.  JSON numbers decode to exact rationals (Python
distinguishes `int` and `float` here; the distinction is irrelevant to
the parse-structure claims). -/

/-- A decoded JSON document. -/
inductive JVal where
  | null : JVal
  | bool (b : Bool) : JVal
  | num (q : ℚ) : JVal
  | str (s : String) : JVal
  | arr (xs : List JVal) : JVal
  | obj (kvs : List (String × JVal)) : JVal

def lbraceChar : Char := Char.ofNat 123
def rbraceChar : Char := Char.ofNat 125
def quoteChar : Char := Char.ofNat 34
def backslashChar : Char := Char.ofNat 92

/-- JSON insignificant whitespace. -/
def jsonWs (c : Char) : Bool := c == ' ' || c == '\t' || c == '\n' || c == '\r'

/-- Skip JSON whitespace. -/
def skipWs (cs : List Char) : List Char := cs.dropWhile jsonWs

/-- Value of a hexadecimal digit. -/
def hexVal (c : Char) : Option Nat :=
  if '0' ≤ c ∧ c ≤ '9' then some (c.toNat - 48)
  else if 'a' ≤ c ∧ c ≤ 'f' then some (c.toNat - 87)
  else if 'A' ≤ c ∧ c ≤ 'F' then some (c.toNat - 55)
  else none

/-- The character denoted by a single-character JSON escape. -/
def escChar (e : Char) : Option Char :=
  if e = quoteChar then some quoteChar
  else if e = backslashChar then some backslashChar
  else if e = '/' then some '/'
  else if e = 'b' then some (Char.ofNat 8)
  else if e = 'f' then some (Char.ofNat 12)
  else if e = 'n' then some '\n'
  else if e = 'r' then some '\r'
  else if e = 't' then some '\t'
  else none

/-- Body of a JSON string after the opening quote: the decoded characters
and the remainder after the closing quote.  Unescaped control characters
are rejected, as by strict `json.loads`. -/
def parseJStrBody : Nat → List Char → Option (List Char × List Char)
  | 0, _ => none
  | fuel + 1, cs =>
    match cs with
    | [] => none
    | c :: rest =>
      if c = quoteChar then some ([], rest)
      else if c = backslashChar then
        match rest with
        | 'u' :: h1 :: h2 :: h3 :: h4 :: rest3 =>
          match hexVal h1, hexVal h2, hexVal h3, hexVal h4 with
          | some a, some b, some c2, some d =>
            (parseJStrBody fuel rest3).map
              (fun p => (Char.ofNat (((a * 16 + b) * 16 + c2) * 16 + d) :: p.1, p.2))
          | _, _, _, _ => none
        | e :: rest2 =>
          match escChar e with
          | some ec => (parseJStrBody fuel rest2).map (fun p => (ec :: p.1, p.2))
          | none => none
        | [] => none
      else if c.toNat < 32 then none
      else (parseJStrBody fuel rest).map (fun p => (c :: p.1, p.2))

/-- Optional fraction part of a JSON number. -/
def parseJNumFrac (cs : List Char) : Option (List Char × List Char) :=
  match cs with
  | '.' :: r =>
    let fs := r.takeWhile Char.isDigit
    if fs.isEmpty then none else some (fs, r.dropWhile Char.isDigit)
  | _ => some ([], cs)

/-- Optional exponent part of a JSON number: sign flag and magnitude. -/
def parseJNumExp (cs : List Char) : Option ((Bool × Nat) × List Char) :=
  match cs with
  | e :: r =>
    if e == 'e' || e == 'E' then
      let sr : Bool × List Char :=
        match r with
        | '+' :: r2 => (true, r2)
        | '-' :: r2 => (false, r2)
        | _ => (true, r)
      let eds := sr.2.takeWhile Char.isDigit
      if eds.isEmpty then none
      else some ((sr.1, digitsToNat eds), sr.2.dropWhile Char.isDigit)
    else some ((true, 0), cs)
  | [] => some ((true, 0), cs)

/-- A JSON number: `-? (0 | [1-9][0-9]*) frac? exp?`. -/
def parseJNum (cs : List Char) : Option (ℚ × List Char) :=
  let negRest : Bool × List Char :=
    match cs with
    | '-' :: r => (true, r)
    | _ => (false, cs)
  let ds := negRest.2.takeWhile Char.isDigit
  let cs2 := negRest.2.dropWhile Char.isDigit
  if ds.isEmpty then none
  else if 1 < ds.length && ds.headD ' ' == '0' then none
  else
    match parseJNumFrac cs2 with
    | none => none
    | some (fs, cs3) =>
      match parseJNumExp cs3 with
      | none => none
      | some (se, cs4) =>
        let mant : ℚ := (digitsToNat ds : ℚ) + (digitsToNat fs : ℚ) / 10 ^ fs.length
        let mant := if negRest.1 then -mant else mant
        some ((if se.1 then mant * 10 ^ se.2 else mant / 10 ^ se.2), cs4)

mutual

/-- One JSON value, after skipping leading whitespace; returns the value
and the unconsumed remainder. -/
def parseJVal : Nat → List Char → Option (JVal × List Char)
  | 0, _ => none
  | fuel + 1, cs0 =>
    let cs := skipWs cs0
    match cs with
    | [] => none
    | c :: rest =>
      if c = quoteChar then
        (parseJStrBody (rest.length + 1) rest).map (fun p => (JVal.str (String.mk p.1), p.2))
      else if c = lbraceChar then
        let csO := skipWs rest
        match csO with
        | c2 :: r2 =>
          if c2 = rbraceChar then some (JVal.obj [], r2)
          else (parseObjItems fuel csO).map (fun p => (JVal.obj p.1, p.2))
        | [] => none
      else if c = '[' then
        let csA := skipWs rest
        match csA with
        | c2 :: r2 =>
          if c2 = ']' then some (JVal.arr [], r2)
          else (parseArrItems fuel csA).map (fun p => (JVal.arr p.1, p.2))
        | [] => none
      else if c = 'n' then
        match rest with
        | 'u' :: 'l' :: 'l' :: r => some (JVal.null, r)
        | _ => none
      else if c = 't' then
        match rest with
        | 'r' :: 'u' :: 'e' :: r => some (JVal.bool true, r)
        | _ => none
      else if c = 'f' then
        match rest with
        | 'a' :: 'l' :: 's' :: 'e' :: r => some (JVal.bool false, r)
        | _ => none
      else
        (parseJNum cs).map (fun p => (JVal.num p.1, p.2))

/-- Comma-separated items of a non-empty JSON array, up to and including
the closing bracket. -/
def parseArrItems : Nat → List Char → Option (List JVal × List Char)
  | 0, _ => none
  | fuel + 1, cs =>
    match parseJVal fuel cs with
    | none => none
    | some (v, rest) =>
      match skipWs rest with
      | c :: r =>
        if c = ',' then
          match parseArrItems fuel r with
          | some (vs, r2) => some (v :: vs, r2)
          | none => none
        else if c = ']' then some ([v], r)
        else none
      | [] => none

/-- Comma-separated members of a non-empty JSON object, up to and
including the closing brace. -/
def parseObjItems : Nat → List Char → Option (List (String × JVal) × List Char)
  | 0, _ => none
  | fuel + 1, cs =>
    match skipWs cs with
    | c :: rest =>
      if c = quoteChar then
        match parseJStrBody (rest.length + 1) rest with
        | none => none
        | some (key, rest2) =>
          match skipWs rest2 with
          | c2 :: rest3 =>
            if c2 = ':' then
              match parseJVal fuel rest3 with
              | none => none
              | some (v, rest4) =>
                match skipWs rest4 with
                | c3 :: rest5 =>
                  if c3 = ',' then
                    match parseObjItems fuel rest5 with
                    | some (kvs, r) => some ((String.mk key, v) :: kvs, r)
                    | none => none
                  else if c3 = rbraceChar then some ([(String.mk key, v)], rest5)
                  else none
                | [] => none
            else none
          | [] => none
      else none
    | [] => none

end

/-- Models `json.loads`: a strict parse of the whole text — one JSON
document with only whitespace around it. -/
def json_loads (s : String) : Option JVal :=
  match parseJVal (s.data.length + 1) s.data with
  | some (v, rest) => if (skipWs rest).isEmpty then some v else none
  | none => none

/-- `text.find("{")` of the source; `none` models Python's `-1`. -/
def firstBraceIdx (cs : List Char) : Option Nat :=
  cs.findIdx? (fun c => c == lbraceChar)

/-- `text.rfind("}")` of the source; `none` models Python's `-1`. -/
def lastBraceIdx (cs : List Char) : Option Nat :=
  match cs.reverse.findIdx? (fun c => c == rbraceChar) with
  | some i => some (cs.length - 1 - i)
  | none => none

/-- The substring `text[start : end + 1]` from the first `'{'` to the last
`'}'`, provided both occur and `end > start` (`rag.py` lines 239–243). -/
def braceSlice (text : String) : Option String :=
  match firstBraceIdx text.data, lastBraceIdx text.data with
  | some s, some e =>
    if s < e then some (String.mk ((text.data.drop s).take (e + 1 - s))) else none
  | _, _ => none

/-- `rag._call_llm._parse_json`: a strict whole-text parse, then a strict
parse of the first-brace-to-last-brace substring, else failure.  The
propagated `json.JSONDecodeError` (surfaced by the spec as
`ModelOutputParseError`) is modelled as `Except.error` carrying the text
of the parse attempt it arose from (`JSONDecodeError.doc`): the whole
text when the fallback is unavailable, the snippet when the fallback
parse itself fails. -/
def _parse_json (text : String) : Except String JVal :=
  match json_loads text with
  | some v => Except.ok v
  | none =>
    match braceSlice text with
    | some snip =>
      match json_loads snip with
      | some v => Except.ok v
      | none => Except.error snip
    | none => Except.error text

/-- Whether the parse produced a value (the call did not raise). -/
def parseOk : Except String JVal → Bool
  | Except.ok _ => true
  | Except.error _ => false

end Corep

-- Concrete evaluation checks of the embedded pipeline.
unseal Rat.add Rat.mul Rat.inv Rat.sub in
example : (Corep.validate_corep_result
    [("CET1", Corep.PyVal.int 300), ("RWA", Corep.PyVal.int 10000)]).CET1_ratio
  = some (3/100) := by decide
unseal Rat.add Rat.mul Rat.inv Rat.sub in
example : (Corep.validate_corep_result
    [("CET1", Corep.PyVal.int 300), ("RWA", Corep.PyVal.int 10000)]).validation_warnings
  = [Corep.thresholdWarning (3/100)] := by decide
unseal Rat.add Rat.mul Rat.inv Rat.sub in
example : (Corep.validate_corep_result
    [("CET1", Corep.PyVal.int 450), ("RWA", Corep.PyVal.int 10000)]).validation_warnings
  = [] := by decide
unseal Rat.add Rat.mul Rat.inv Rat.sub in
example : Corep.formatFixed4 (3/100) = "0.0300" := by decide
unseal Rat.add Rat.mul Rat.inv Rat.sub in
example : Corep.formatFixed4 Corep.minCet1Ratio = "0.0450" := by decide
unseal Rat.add Rat.mul Rat.inv Rat.sub in
example : (Corep.validate_corep_result
    [("CET1", Corep.PyVal.int 300), ("AT1", Corep.PyVal.none),
     ("Tier2", Corep.PyVal.str "n/a"), ("RWA", Corep.PyVal.int 5000)]).missing_fields
  = ["AT1", "Tier2"] := by decide
unseal Rat.add Rat.mul Rat.inv Rat.sub in
example : (Corep.validate_corep_result [("explanation", Corep.PyVal.str "")]).explanation
  = "" := by decide
unseal Rat.add Rat.mul Rat.inv Rat.sub in
example : (Corep.validate_corep_result []).explanation = Corep.defaultExplanation := by decide
unseal Rat.add Rat.mul Rat.inv Rat.sub in
example : (Corep.pipelineResult
    [("rules_used", Corep.PyVal.list [Corep.PyVal.str "a", Corep.PyVal.str "a"])]
    []).rules_used = ["a", "a"] := by decide
unseal Rat.add Rat.mul Rat.inv Rat.sub in
example : Corep.mergeCitations ["b"]
    [⟨"0", "s", "a", "t"⟩, ⟨"1", "s", "c", "t"⟩, ⟨"2", "s", "a", "t"⟩]
  = ["b", "a", "c"] := by decide


namespace Corep

/-! ### Supporting lemmas -/

theorem dedupAppend_nil (acc : List String) : dedupAppend acc [] = acc := rfl

theorem dedupAppend_cons (acc : List String) (x : String) (xs : List String) :
    dedupAppend acc (x :: xs) = dedupAppend (if x ∈ acc then acc else acc ++ [x]) xs := rfl

theorem mem_dedupAppend_left {a : String} {acc : List String} (xs : List String)
    (h : a ∈ acc) : a ∈ dedupAppend acc xs := by
  induction xs generalizing acc with
  | nil => simpa [dedupAppend_nil] using h
  | cons x xs ih =>
    rw [dedupAppend_cons]
    refine ih ?_
    by_cases hx : x ∈ acc
    · simpa [hx] using h
    · simp only [hx, if_false]
      exact List.mem_append_left _ h

theorem mem_dedupAppend_right {a : String} (acc xs : List String)
    (h : a ∈ xs) : a ∈ dedupAppend acc xs := by
  induction xs generalizing acc with
  | nil => cases h
  | cons x xs ih =>
    rw [dedupAppend_cons]
    rcases List.mem_cons.mp h with rfl | hx
    · apply mem_dedupAppend_left
      by_cases hx2 : a ∈ acc
      · simp [hx2]
      · simp [hx2]
    · exact ih _ hx

theorem dedupAppend_eq_self {acc xs : List String}
    (h : ∀ a ∈ xs, a ∈ acc) : dedupAppend acc xs = acc := by
  induction xs with
  | nil => rfl
  | cons x xs ih =>
    rw [dedupAppend_cons, if_pos (h x (by simp))]
    exact ih (fun a ha => h a (by simp [ha]))

theorem dedupAppend_append_rest (acc xs : List String) :
    ∃ t, dedupAppend acc xs = acc ++ t := by
  induction xs generalizing acc with
  | nil => exact ⟨[], by simp [dedupAppend_nil]⟩
  | cons x xs ih =>
    rw [dedupAppend_cons]
    by_cases hx : x ∈ acc
    · rw [if_pos hx]; exact ih acc
    · rw [if_neg hx]
      obtain ⟨t, ht⟩ := ih (acc ++ [x])
      exact ⟨x :: t, by simp [ht]⟩

theorem dedupAppend_nodup {acc : List String} (xs : List String)
    (h : acc.Nodup) : (dedupAppend acc xs).Nodup := by
  induction xs generalizing acc with
  | nil => simpa [dedupAppend_nil] using h
  | cons x xs ih =>
    rw [dedupAppend_cons]
    refine ih ?_
    by_cases hx : x ∈ acc
    · simpa [hx] using h
    · simp [hx, List.nodup_append, h]

theorem thresholdWarning_ne_discrepancy (q : ℚ) :
    thresholdWarning q ≠ discrepancyWarning := by
  intro h
  have h1 : (thresholdWarning q).data.head? = some 'C' := rfl
  have h2 : discrepancyWarning.data.head? = some 'M' := rfl
  rw [h, h2] at h1
  exact absurd h1 (by decide)

theorem step5Ratio_snd_cases (c r m : Option ℚ) :
    (step5Ratio c r m).2 = [] ∨ (step5Ratio c r m).2 = [discrepancyWarning] := by
  rcases c with _ | cv <;> rcases r with _ | rv <;> simp only [step5Ratio]
  · simp
  · simp
  · simp
  · by_cases hr : 0 < rv
    · rw [if_pos hr]
      rcases m with _ | mv
      · exact Or.inl rfl
      · by_cases hd : ratioTol < |mv - cv| ∧ ratioTol < |mv - cv / rv|
        · exact Or.inr (by simp [hd])
        · exact Or.inl (by simp [hd])
    · rw [if_neg hr]
      exact Or.inl rfl

theorem derivedWarnings_cases (initial : RawOutput) :
    (derivedRatioWarnings initial).2 = [] ∨
      (derivedRatioWarnings initial).2 = [discrepancyWarning] :=
  step5Ratio_snd_cases _ _ _

theorem thresholdWarnings_cases (r : Option ℚ) :
    thresholdWarnings r = [] ∨
      ∃ q, r = some q ∧ q < minCet1Ratio ∧ thresholdWarnings r = [thresholdWarning q] := by
  rcases r with _ | q
  · exact Or.inl rfl
  · by_cases hlt : q < minCet1Ratio
    · exact Or.inr ⟨q, rfl, hlt, by simp [thresholdWarnings, hlt]⟩
    · exact Or.inl (by simp [thresholdWarnings, hlt])

theorem detWarnings_nodup (initial : RawOutput) : (detWarnings initial).Nodup := by
  unfold detWarnings
  rcases derivedWarnings_cases initial with he | he <;> rw [he] <;>
    rcases thresholdWarnings_cases (derivedRatio initial) with ht | ⟨q, _, _, ht⟩ <;> rw [ht]
  · exact List.nodup_nil
  · simp
  · simp
  · simp only [List.cons_append, List.nil_append]
    refine List.nodup_cons.mpr ⟨?_, by simp⟩
    intro hmem
    exact thresholdWarning_ne_discrepancy q ((List.mem_singleton.mp hmem).symm)

theorem detMissingFields_nodup (initial : RawOutput) : (detMissingFields initial).Nodup := by
  have hsub : List.Sublist (detMissingFields initial) (["CET1", "AT1", "Tier2", "RWA"]) := by
    unfold detMissingFields
    exact (List.filter_sublist _).map Prod.fst
  exact List.Nodup.sublist hsub (by decide)

unseal Rat.add Rat.mul Rat.inv Rat.sub in
example : Corep._to_optional_float (Corep.PyVal.bool true) = some 1 := by decide
unseal Rat.add Rat.mul Rat.inv Rat.sub in
example : Corep._to_optional_float (Corep.PyVal.str "%12") = some 12 := by decide
unseal Rat.add Rat.mul Rat.inv Rat.sub in
example : Corep._to_optional_float (Corep.PyVal.str "1%2") = some 12 := by decide
unseal Rat.add Rat.mul Rat.inv Rat.sub in
example : Corep._to_optional_float (Corep.PyVal.str " 12.5% ") = some (25/2) := by decide
unseal Rat.add Rat.mul Rat.inv Rat.sub in
example : Corep._to_optional_float (Corep.PyVal.str "") = none := by decide
unseal Rat.add Rat.mul Rat.inv Rat.sub in
example : Corep._to_optional_float (Corep.PyVal.str " % ") = none := by decide
unseal Rat.add Rat.mul Rat.inv Rat.sub in
example : Corep._to_optional_float (Corep.PyVal.str "1e3") = some 1000 := by decide
unseal Rat.add Rat.mul Rat.inv Rat.sub in
example : Corep._to_optional_float (Corep.PyVal.str "-4.5E-2") = some (-9/200) := by decide
unseal Rat.add Rat.mul Rat.inv Rat.sub in
example : Corep._to_optional_float (Corep.PyVal.str "n/a") = none := by decide
unseal Rat.add Rat.mul Rat.inv Rat.sub in
example : Corep._to_optional_float (Corep.PyVal.list []) = none := by decide

/-! ### The claims -/

section ClaimProofs

attribute [local semireducible] Rat.add Rat.mul Rat.inv Rat.sub


/-- Claim C1: for every raw model output in which CET1 coerces to `c` and
RWA coerces to `r` with `r > 0`, `validate_corep_result` returns a result
whose `CET1_ratio` is exactly `c / r`, whatever ratio the model proposed
(the input `initial` is arbitrary, so in particular its `CET1_ratio`
entry is arbitrary). -/
theorem CET1_ratio_authority (initial : RawOutput) (c r : ℚ)
    (hc : coerced initial "CET1" = some c) (hr : coerced initial "RWA" = some r)
    (hpos : 0 < r) :
    (validate_corep_result initial).CET1_ratio = some (c / r) := by
  show derivedRatio initial = some (c / r)
  unfold derivedRatio derivedRatioWarnings
  rw [hc, hr]
  simp only [step5Ratio, if_pos hpos]

/-- Witness for C1 at CET1 = 300, RWA = 10000, model ratio 0.5. -/
theorem CET1_ratio_authority_witness :
    (validate_corep_result [("CET1", PyVal.int 300), ("RWA", PyVal.int 10000),
      ("CET1_ratio", PyVal.float (1 / 2))]).CET1_ratio = some ((300 : ℚ) / 10000) :=
  CET1_ratio_authority _ 300 10000 (by decide) (by decide) (by decide)

/-- Claim C2 (amended): the final result's `missing_fields` and
`validation_warnings` are duplicate-free, and the retrieved citation set
folded into `rules_used` is duplicate-free, but model-declared
`rules_used` entries are appended without deduplication (see the
counterexample). -/
theorem audit_lists_nodup (initial : RawOutput) (docs : List RetrievedDoc) :
    (pipelineResult initial docs).missing_fields.Nodup ∧
    (pipelineResult initial docs).validation_warnings.Nodup ∧
    (sortedCitations docs).Nodup := by
  refine ⟨?_, ?_, ?_⟩
  · show (dedupAppend (detMissingFields initial)
      (modelListEntries (dictGet initial "missing_fields"))).Nodup
    exact dedupAppend_nodup _ (detMissingFields_nodup initial)
  · show (dedupAppend (detWarnings initial)
      (modelListEntries (dictGet initial "validation_warnings"))).Nodup
    exact dedupAppend_nodup _ (detWarnings_nodup initial)
  · exact ((List.perm_insertionSort _ _).nodup_iff).mpr (List.nodup_dedup _)

/-- Counterexample to C2 as stated: a model output declaring
`rules_used = ["a", "a"]` survives reconciliation (and an empty audit
merge) with the duplicate intact. -/
theorem rules_used_duplicates_cex :
    ¬ (pipelineResult [("rules_used", PyVal.list [PyVal.str "a", PyVal.str "a"])]
        []).rules_used.Nodup := by decide

/-- Claim C3 (amended): every list input coerces to `None`, but booleans
are treated as the ints Python considers them to be:
`coerce(True) = 1.0` and `coerce(False) = 0.0`. -/
theorem coerce_bool_as_int (xs : List PyVal) :
    _to_optional_float (PyVal.list xs) = none ∧
    _to_optional_float (PyVal.bool true) = some 1 ∧
    _to_optional_float (PyVal.bool false) = some 0 :=
  ⟨rfl, rfl, rfl⟩

/-- Counterexample to C3 as stated: `coerce(True)` is not `None` (it is
`1.0`, because `bool` is a subclass of `int` and takes the
`isinstance(value, (int, float))` branch). -/
theorem coerce_true_cex : ¬ (_to_optional_float (PyVal.bool true) = none) := by decide

/-- Claim C4 (amended): the string coercer strips surrounding whitespace
and removes **every** `'%'` character wherever it occurs before the
strict decimal parse — the outcome depends only on the stripped,
`%`-free character content — so `"1%2"` coerces to `12.0` rather than
`None`; empty-after-removal still gives `None`. -/
theorem coerce_percent_removed_anywhere (s t : String)
    (h : (stripChars s.data).filter (fun c => !(c == '%')) =
         (stripChars t.data).filter (fun c => !(c == '%'))) :
    _to_optional_float (PyVal.str s) = _to_optional_float (PyVal.str t) ∧
    _to_optional_float (PyVal.str " 12.5% ") = some (25 / 2) ∧
    _to_optional_float (PyVal.str "1%2") = some 12 ∧
    _to_optional_float (PyVal.str "") = none := by
  refine ⟨?_, by decide, by decide, rfl⟩
  simp only [_to_optional_float]
  rw [h]

/-- Witness for C4: `"%12"` and `"12%"` have the same stripped `%`-free
content, hence the same coercion. -/
theorem coerce_percent_removed_anywhere_witness :
    _to_optional_float (PyVal.str "%12") = _to_optional_float (PyVal.str "12%") :=
  (coerce_percent_removed_anywhere "%12" "12%" (by decide)).1

/-- Counterexample to C4 as stated: `"%12"` and `"1%2"` do not coerce to
`None`; both parse as `12.0` after all `'%'` characters are removed. -/
theorem coerce_percent_prefix_cex :
    _to_optional_float (PyVal.str "%12") = some 12 ∧
    _to_optional_float (PyVal.str "1%2") = some 12 ∧
    ¬ (_to_optional_float (PyVal.str "%12") = none) := by decide

/-- Claim C5 (amended): a completion whose whole text is valid JSON — any
JSON document, not only an object — yields the whole-text parse;
otherwise, if the first-`{`-to-last-`}` substring exists (last brace
strictly after the first) and parses, that object is returned; otherwise
the call fails with a parse error carrying the text of the failed
attempt, and a brace-free text fails exactly when it is not itself valid
JSON. -/
theorem parse_json_two_tier (text : String) :
    (∀ v, json_loads text = some v → _parse_json text = Except.ok v) ∧
    (∀ snip v, json_loads text = none → braceSlice text = some snip →
      json_loads snip = some v → _parse_json text = Except.ok v) ∧
    (json_loads text = none → braceSlice text = none →
      _parse_json text = Except.error text) ∧
    (∀ snip, json_loads text = none → braceSlice text = some snip →
      json_loads snip = none → _parse_json text = Except.error snip) ∧
    (lbraceChar ∉ text.data → braceSlice text = none) := by
  refine ⟨?_, ?_, ?_, ?_, ?_⟩
  · intro v hv
    simp only [_parse_json, hv]
  · intro snip v hn hs hv
    simp only [_parse_json, hn, hs, hv]
  · intro hn hb
    simp only [_parse_json, hn, hb]
  · intro snip hn hs hv
    simp only [_parse_json, hn, hs, hv]
  · intro hnb
    have hfi : firstBraceIdx text.data = none := by
      unfold firstBraceIdx
      rw [List.findIdx?_eq_none_iff]
      intro x hx
      simp only [beq_eq_false_iff_ne]
      intro he
      exact hnb (he ▸ hx)
    simp only [braceSlice, hfi]

/-- Witness for C5: a completion with no valid JSON and no braces fails
with the error carrying the raw text. -/
theorem parse_json_two_tier_witness :
    _parse_json "Sorry, I cannot help with that." =
      Except.error "Sorry, I cannot help with that." :=
  (parse_json_two_tier _).2.2.1 (by rfl) (by rfl)

/-- Counterexample to C5 as stated: the brace-free completion `"5"` is
accepted by the strict whole-text `json.loads` (a JSON number, not an
object), so the call succeeds instead of raising. -/
theorem parse_json_no_brace_cex :
    parseOk (_parse_json "5") = true ∧
    lbraceChar ∉ "5".data ∧ rbraceChar ∉ "5".data := by
  refine ⟨by rfl, by decide, by decide⟩

/-- Claim C6: whenever the final `CET1_ratio` is present, the
deterministic threshold warning for that ratio is appended iff the ratio
is strictly below `0.045`; the deterministic warnings are a prefix of the
final warning list, and the warning text carries the ratio formatted to
four decimal places and the `4.5%` minimum. -/
theorem threshold_warning_iff (initial : RawOutput) (q : ℚ)
    (h : (validate_corep_result initial).CET1_ratio = some q) :
    (thresholdWarning q ∈ detWarnings initial ↔ q < minCet1Ratio) ∧
    (∃ rest, (validate_corep_result initial).validation_warnings =
      detWarnings initial ++ rest) ∧
    thresholdWarning q =
      "CET1_ratio of " ++ formatFixed4 q ++ " is below the minimum requirement of " ++
        formatFixed4 minCet1Ratio ++ " (4.5%)." := by
  have hd : derivedRatio initial = some q := h
  refine ⟨⟨?_, ?_⟩, dedupAppend_append_rest _ _, rfl⟩
  · intro hmem
    unfold detWarnings at hmem
    rcases List.mem_append.mp hmem with h1 | h2
    · rcases derivedWarnings_cases initial with he | he <;> rw [he] at h1
      · cases h1
      · exact absurd (List.mem_singleton.mp h1) (thresholdWarning_ne_discrepancy q)
    · rw [hd] at h2
      by_cases hlt : q < minCet1Ratio
      · exact hlt
      · rw [show thresholdWarnings (some q) = [] from by simp [thresholdWarnings, hlt]] at h2
        cases h2
  · intro hlt
    unfold detWarnings
    refine List.mem_append_right _ ?_
    rw [hd]
    simp [thresholdWarnings, hlt]

/-- Witness for C6 at CET1 = 300, RWA = 10000 (ratio 0.03 < 0.045). -/
theorem threshold_warning_iff_witness :
    thresholdWarning (3 / 100) ∈
      detWarnings [("CET1", PyVal.int 300), ("RWA", PyVal.int 10000)] :=
  ((threshold_warning_iff _ (3 / 100) (by decide)).1).mpr (by decide)

/-- Claim C7: the deterministic part of `missing_fields` is exactly the
names among CET1, AT1, Tier2, RWA whose coerced value is `None`, in that
fixed order; an RWA that coerces to any concrete number (zero or
negative included) is never listed; and the deterministic part is a
prefix of the final `missing_fields`. -/
theorem det_missing_fields_spec (initial : RawOutput) :
    detMissingFields initial =
      (["CET1", "AT1", "Tier2", "RWA"].filter (fun n => (coerced initial n).isNone)) ∧
    (∀ v : ℚ, coerced initial "RWA" = some v → "RWA" ∉ detMissingFields initial) ∧
    (∃ rest, (validate_corep_result initial).missing_fields =
      detMissingFields initial ++ rest) := by
  have h1 : detMissingFields initial =
      (["CET1", "AT1", "Tier2", "RWA"].filter (fun n => (coerced initial n).isNone)) := by
    unfold detMissingFields
    cases hc : (coerced initial "CET1").isNone <;>
      cases ha : (coerced initial "AT1").isNone <;>
        cases ht : (coerced initial "Tier2").isNone <;>
          cases hr : (coerced initial "RWA").isNone <;>
            simp [List.filter, hc, ha, ht, hr]
  refine ⟨h1, ?_, dedupAppend_append_rest _ _⟩
  intro v hv
  rw [h1]
  simp [List.mem_filter, hv]

/-- Witness for C7: RWA = 0 coerces to a concrete number and is not
reported missing. -/
theorem det_missing_fields_spec_witness :
    "RWA" ∉ detMissingFields [("CET1", PyVal.int 300), ("RWA", PyVal.int 0),
      ("Tier2", PyVal.str "n/a")] :=
  (det_missing_fields_spec _).2.1 0 (by decide)

/-- Claim C8: the audit merge is idempotent — merging the same snippet
list twice is a no-op the second time — and a result already containing
every retrieved citation is returned unchanged. -/
theorem audit_merge_idempotent (res : CorepResult) (docs : List RetrievedDoc) :
    auditMerge (auditMerge res docs) docs = auditMerge res docs ∧
    ((∀ c ∈ sortedCitations docs, c ∈ res.rules_used) → auditMerge res docs = res) := by
  obtain ⟨tn, f1, f2, f3, f4, f5, mf, vw, ru, ex⟩ := res
  constructor
  · simp only [auditMerge, mergeCitations, CorepResult.mk.injEq, true_and, and_true]
    exact dedupAppend_eq_self (fun a ha => mem_dedupAppend_right _ _ ha)
  · intro hall
    simp only [auditMerge, mergeCitations, CorepResult.mk.injEq, true_and, and_true]
    exact dedupAppend_eq_self hall

/-- Witness for C8: a result already citing the sole retrieved citation
is unchanged by the merge. -/
theorem audit_merge_idempotent_witness :
    auditMerge (CorepResult.mk "t" none none none none none [] [] ["X"] "e")
        [RetrievedDoc.mk "0" "s" "X" "snippet"] =
      CorepResult.mk "t" none none none none none [] [] ["X"] "e" :=
  (audit_merge_idempotent _ _).2 (by decide)

/-- Claim C9 (amended): when the `explanation` key is absent the result
carries the fixed non-empty placeholder; when the key is present the
result carries `str(value)`, which is empty exactly for the empty-string
value (see the counterexample). -/
theorem explanation_default_spec (initial : RawOutput) :
    (dictLookup initial "explanation" = none →
      (validate_corep_result initial).explanation = defaultExplanation ∧
        defaultExplanation ≠ "") ∧
    (∀ v, dictLookup initial "explanation" = some v →
      (validate_corep_result initial).explanation = pyStr v) := by
  constructor
  · intro h
    refine ⟨?_, by decide⟩
    show pyStr (dictGetD initial "explanation" (PyVal.str defaultExplanation)) =
      defaultExplanation
    unfold dictGetD
    rw [h]
    rfl
  · intro v h
    show pyStr (dictGetD initial "explanation" (PyVal.str defaultExplanation)) = pyStr v
    unfold dictGetD
    rw [h]
    rfl

/-- Witness for C9: with the key absent, the placeholder is used. -/
theorem explanation_default_spec_witness :
    (validate_corep_result []).explanation = defaultExplanation :=
  ((explanation_default_spec []).1 rfl).1

/-- Counterexample to C9 as stated: an explanation key present with the
empty string yields an empty explanation (only an *absent* key triggers
the placeholder). -/
theorem explanation_empty_cex :
    (validate_corep_result [("explanation", PyVal.str "")]).explanation = "" := rfl

/-- Claim C10: a truthy non-list `rules_used` value contributes its own
`str` form as a single entry, while a falsy value contributes nothing. -/
theorem rules_used_scalar_passthrough (initial : RawOutput) (v : PyVal)
    (hv : dictGet initial "rules_used" = v) :
    (validate_corep_result initial).rules_used = rulesUsedFromModel v ∧
    (pyTruthy v = false → rulesUsedFromModel v = []) ∧
    (pyTruthy v = true → (∀ xs, v ≠ PyVal.list xs) →
      rulesUsedFromModel v = [pyStr v]) := by
  refine ⟨?_, ?_, ?_⟩
  · show rulesUsedFromModel (dictGet initial "rules_used") = rulesUsedFromModel v
    rw [hv]
  · intro hf
    unfold rulesUsedFromModel
    rw [hf]
    simp
  · intro ht hnl
    unfold rulesUsedFromModel
    rw [ht]
    cases v with
    | list xs => exact absurd rfl (hnl xs)
    | none => simp
    | bool b => simp
    | int n => simp
    | float q => simp
    | str s => simp

/-- Witness for C10: a bare string `rules_used` becomes a singleton. -/
theorem rules_used_scalar_passthrough_witness :
    (validate_corep_result [("rules_used", PyVal.str "CRR Art. 92(1)(a)")]).rules_used
      = ["CRR Art. 92(1)(a)"] := by
  have h := rules_used_scalar_passthrough [("rules_used", PyVal.str "CRR Art. 92(1)(a)")]
    (PyVal.str "CRR Art. 92(1)(a)") rfl
  rw [h.1]
  exact h.2.2 (by decide) (fun xs hx => PyVal.noConfusion hx)

end ClaimProofs

end Corep
